import Mathlib

/-!
# webrpc.getOutputsHandler

A shallow embedding of `src/api/webrpc/outputs.go`: the JSON-RPC handler that
validates a list of address strings and asks the gateway for the unspent
outputs of those addresses.

External calls (address codec, gateway, logger) are recorded in an explicit
trace, so that "is invoked", "is never invoked" and "is invoked once" are
statements about the value the handler returns.
-/

namespace webrpc

/-! ## Go library functions used by the handler -/

/-- Go `strings.Trim(s, cutset)`: `s` with all leading and trailing code points
contained in `cutset` removed.  Go strings decoded from JSON are valid UTF-8, so
a string is its sequence of code points. -/
def Trim (s cutset : String) : String :=
  ⟨(s.data.rdropWhile (fun c => cutset.data.contains c)).dropWhile
    (fun c => cutset.data.contains c)⟩

/-! ## Declarations of the package that live outside `outputs.go` -/

/-- Modelled from the spec: the inbound `Request` type, whose declaration is
not in `outputs.go`.  The handler only reads its correlation identifier `ID`
and calls its method `DecodeParams(&addrs)`, which either fails with an error
or yields the parameter list decoded as a sequence of text values. -/
structure Request where
  ID : String
  DecodeParams : Except String (List String)

/-- `OutputsResult the output json format`: wraps exactly one output set. -/
structure OutputsResult (Out : Type) where
  Outputs : Out
deriving DecidableEq, Repr

/-- Modelled from the spec: the `Response` envelope and its two builders, whose
declarations are not in `outputs.go`.  A success envelope is tagged with the
correlation identifier it was given and has a body; a failure envelope is
tagged with an error code and a human-readable message.  A response is exactly
one of the two. -/
inductive Response (Out : Type) where
  | success (id : String) (result : OutputsResult Out)
  | failure (code : Int) (message : String)
deriving DecidableEq, Repr

/-- Modelled from the spec: `makeErrorResponse(code, message)`, the failure
envelope built from an error code and a message (its only two arguments at
every call site of the handler). -/
def makeErrorResponse {Out : Type} (code : Int) (message : String) : Response Out :=
  Response.failure code message

/-- Modelled from the spec: `makeSuccessResponse(id, result)`, the success
envelope tagged with the correlation identifier and carrying the body. -/
def makeSuccessResponse {Out : Type} (id : String) (result : OutputsResult Out) :
    Response Out :=
  Response.success id result

/-- The correlation identifier an envelope carries, if any. -/
def Response.ID {Out : Type} : Response Out → Option String
  | Response.success id _ => some id
  | Response.failure _ _ => none

/-- The output set an envelope carries, if any. -/
def Response.outputs {Out : Type} : Response Out → Option Out
  | Response.success _ r => some r.Outputs
  | Response.failure _ _ => none

/-- The error (code, message) an envelope carries, if any. -/
def Response.error {Out : Type} : Response Out → Option (Int × String)
  | Response.success _ _ => none
  | Response.failure c m => some (c, m)

/-- The package-level names the handler refers to whose values are declared in
other files: the two error codes, the fixed invalid-params message, and the
address codec `cipher.DecodeBase58Address`, which either decodes the text to
an address or fails with an error. -/
structure Decls (Addr : Type) where
  errCodeInvalidParams : Int
  errMsgInvalidParams : String
  errCodeInternalError : Int
  DecodeBase58Address : String → Except String Addr

/-- The `Gatewayer` interface, as far as the handler uses it:
`GetUnspentOutputs(daemon.FbyAddresses(addrs))` returns a Go pair
`(outs *ReadableOutputSet, err error)`, each of which may be nil.  The filter
is determined by the address list it is built from, so the gateway is given
that list. -/
structure Gatewayer (Out : Type) where
  GetUnspentOutputs : List String → Option Out × Option String

/-- An external call made by the handler. -/
inductive Call where
  | decodeBase58Address (a : String)
  | getUnspentOutputs (addrs : List String)
  | logErrorf (msg : String)
deriving DecidableEq, Repr

/-! ## The handler -/

/-- The validation loop `for _, a := range addrs`: calls the codec on each
address in order and stops at the first one it rejects, which it returns.
The first component is the calls made. -/
def validate {Addr : Type} (d : Decls Addr) : List String → List Call × Option String
  | [] => ([], none)
  | a :: rest =>
    match d.DecodeBase58Address a with
    | Except.error _ => ([Call.decodeBase58Address a], some a)
    | Except.ok _ =>
      let r := validate d rest
      (Call.decodeBase58Address a :: r.1, r.2)

/-- The handler `getOutputsHandler(req, gateway)`.  It returns the external
calls it made, in order, and its response; the response is `none` when the
handler panics (the gateway returned neither an output set nor an error, and
the handler dereferences the nil output set). -/
def getOutputsHandler {Addr Out : Type} (d : Decls Addr) (req : Request)
    (gateway : Gatewayer Out) : List Call × Option (Response Out) :=
  match req.DecodeParams with
  | Except.error _ =>
    ([], some (makeErrorResponse d.errCodeInvalidParams d.errMsgInvalidParams))
  | Except.ok addrs =>
    if addrs.length = 0 then
      ([], some (makeErrorResponse d.errCodeInvalidParams d.errMsgInvalidParams))
    else
      let addrs := addrs.map (fun a => Trim a " ")
      match validate d addrs with
      | (calls, some a) =>
        (calls, some (makeErrorResponse d.errCodeInvalidParams ("invalid address: " ++ a)))
      | (calls, none) =>
        match gateway.GetUnspentOutputs addrs with
        | (_, some err) =>
          (calls ++ [Call.getUnspentOutputs addrs,
                     Call.logErrorf ("get unspent outputs failed: " ++ err)],
            some (makeErrorResponse d.errCodeInternalError
              ("gateway.GetUnspentOutputs failed: " ++ err)))
        | (some outs, none) =>
          (calls ++ [Call.getUnspentOutputs addrs],
            some (makeSuccessResponse req.ID { Outputs := outs }))
        | (none, none) =>
          (calls ++ [Call.getUnspentOutputs addrs], none)

/-- The arguments of the codec calls in a trace, in order. -/
def codecArgs : List Call → List String
  | [] => []
  | Call.decodeBase58Address a :: t => a :: codecArgs t
  | _ :: t => codecArgs t

/-- The address lists of the gateway calls in a trace, in order. -/
def gatewayArgs : List Call → List (List String)
  | [] => []
  | Call.getUnspentOutputs addrs :: t => addrs :: gatewayArgs t
  | _ :: t => gatewayArgs t

/-! ## Concrete collaborators used to exercise the handler -/

/-- A codec that accepts exactly the texts starting with the letters `addr` or
`valid`, decoding them to their length. -/
def sampleDecls : Decls Nat where
  errCodeInvalidParams := -32602
  errMsgInvalidParams := "Invalid params"
  errCodeInternalError := -32603
  DecodeBase58Address := fun a =>
    if "addr".data.isPrefixOf a.data || "valid".data.isPrefixOf a.data then Except.ok a.length
    else Except.error "Invalid base58 string"

/-- A gateway that returns one output per requested address. -/
def sampleGateway : Gatewayer (List String) where
  GetUnspentOutputs := fun addrs => (some (addrs.map (fun a => "out-of-" ++ a)), none)

/-- A gateway whose backend fails, returning a partial output set with the error. -/
def failingGateway : Gatewayer (List String) where
  GetUnspentOutputs := fun addrs => (some (addrs.take 1), some "storage unavailable")

/-- The request with correlation identifier `id` whose parameters decode to `L`. -/
def requestOf (id : String) (L : List String) : Request :=
  { ID := id, DecodeParams := Except.ok L }

/-- Two accepted addresses around two rejected ones. -/
def mixedList : List String := ["validAddr1", " not-an-address ", "validAddr2", "bogus"]

/-- Two accepted addresses, the first one padded with spaces. -/
def validList : List String := [" addrA ", "addrB"]

/-- The same accepted address twice. -/
def dupList : List String := ["addrA", "addrA"]

/-- The empty text and a text of three spaces. -/
def blankList : List String := ["", "   "]

/-- The text `a` with `n` space characters put before it and `m` after it. -/
def pad (n : Nat) (a : String) (m : Nat) : String :=
  ⟨List.replicate n ' ' ++ a.data ++ List.replicate m ' '⟩

/-- Whether the codec accepts the text `a`. -/
def accepts {Addr : Type} (d : Decls Addr) (a : String) : Bool :=
  match d.DecodeBase58Address a with
  | Except.ok _ => true
  | Except.error _ => false

/-- The text `a'` is `a` with some leading and trailing spaces added. -/
def Padded (a a' : String) : Prop := ∃ n m, a' = pad n a m

/-- The space test used by `Trim s " "`. -/
def isSp (c : Char) : Bool := c == ' '

/-! ## Lemmas on trimming -/

section TrimLemmas

theorem Trim_space_data (s : String) :
    (Trim s " ").data = (s.data.rdropWhile isSp).dropWhile isSp := by
  have h : (fun c : Char => (" " : String).data.contains c) = isSp := by
    funext c
    simp only [isSp, List.contains, List.elem]
    cases c == ' ' <;> rfl
  simp only [Trim, h]

theorem rdropWhile_append_replicate (l : List Char) (m : Nat) :
    (l ++ List.replicate m ' ').rdropWhile isSp = l.rdropWhile isSp := by
  induction m with
  | zero => simp
  | succ k ih =>
    rw [List.replicate_succ', ← List.append_assoc,
      List.rdropWhile_concat_pos _ _ _ (by simp [isSp]), ih]

theorem dropWhile_rdropWhile_cons_space (l : List Char) :
    ((' ' :: l).rdropWhile isSp).dropWhile isSp = (l.rdropWhile isSp).dropWhile isSp := by
  induction l using List.reverseRecOn with
  | nil => simp [List.rdropWhile_singleton, isSp]
  | append_singleton l y ih =>
    by_cases hy : isSp y = true
    · rw [← List.cons_append, List.rdropWhile_concat_pos _ _ _ hy,
        List.rdropWhile_concat_pos _ _ _ hy, ih]
    · rw [← List.cons_append, List.rdropWhile_concat_neg _ _ _ hy,
        List.rdropWhile_concat_neg _ _ _ hy]
      simp [List.dropWhile, isSp]

theorem dropWhile_rdropWhile_replicate_append (n : Nat) (l : List Char) :
    ((List.replicate n ' ' ++ l).rdropWhile isSp).dropWhile isSp
      = (l.rdropWhile isSp).dropWhile isSp := by
  induction n with
  | zero => simp
  | succ k ih => rw [List.replicate_succ, List.cons_append, dropWhile_rdropWhile_cons_space, ih]

/-- Trimming undoes space padding. -/
theorem Trim_pad (n : Nat) (a : String) (m : Nat) : Trim (pad n a m) " " = Trim a " " := by
  apply String.ext
  rw [Trim_space_data, Trim_space_data]
  simp only [pad]
  rw [rdropWhile_append_replicate, dropWhile_rdropWhile_replicate_append]

theorem exists_rdropWhile_append (l : List Char) :
    ∃ m, l = l.rdropWhile isSp ++ List.replicate m ' ' := by
  induction l using List.reverseRecOn with
  | nil => exact ⟨0, by simp⟩
  | append_singleton l y ih =>
    by_cases hy : isSp y = true
    · obtain ⟨m, hm⟩ := ih
      have hy2 : y = ' ' := by simpa [isSp] using hy
      refine ⟨m + 1, ?_⟩
      rw [List.rdropWhile_concat_pos _ _ _ hy, List.replicate_succ', ← List.append_assoc,
        ← hm, hy2]
    · exact ⟨0, by rw [List.rdropWhile_concat_neg _ _ _ hy]; simp⟩

theorem exists_append_dropWhile (l : List Char) :
    ∃ n, l = List.replicate n ' ' ++ l.dropWhile isSp := by
  induction l with
  | nil => exact ⟨0, by simp⟩
  | cons x t ih =>
    by_cases hx : isSp x = true
    · obtain ⟨n, hn⟩ := ih
      have hx2 : x = ' ' := by simpa [isSp] using hx
      refine ⟨n + 1, ?_⟩
      rw [List.dropWhile_cons_of_pos hx, List.replicate_succ, List.cons_append, ← hn, hx2]
    · exact ⟨0, by rw [List.dropWhile_cons_of_neg hx]; simp⟩

/-- A text is its trimmed form between two runs of spaces. -/
theorem Trim_decomp (a : String) : ∃ n m, a = pad n (Trim a " ") m := by
  obtain ⟨m, hm⟩ := exists_rdropWhile_append a.data
  obtain ⟨n, hn⟩ := exists_append_dropWhile (a.data.rdropWhile isSp)
  refine ⟨n, m, String.ext ?_⟩
  simp only [pad]
  rw [Trim_space_data, ← hn, ← hm]

/-- A trimmed text does not start with a space. -/
theorem Trim_head (a : String) : (Trim a " ").data.head? ≠ some ' ' := by
  rw [Trim_space_data]
  intro h
  have := List.head?_dropWhile_not isSp (a.data.rdropWhile isSp)
  rw [h] at this
  simp [isSp] at this

/-- A trimmed text does not end with a space. -/
theorem Trim_last (a : String) : (Trim a " ").data.getLast? ≠ some ' ' := by
  rw [Trim_space_data]
  intro h
  have hne : (a.data.rdropWhile isSp).dropWhile isSp ≠ [] := by
    intro h0
    rw [h0] at h
    simp at h
  have hsuf := List.dropWhile_suffix (l := a.data.rdropWhile isSp) isSp
  have h1 := hsuf.getLast hne
  have h2 := List.rdropWhile_last_not isSp a.data (hsuf.ne_nil hne)
  rw [← h1, (List.getLast_eq_iff_getLast_eq_some hne).mpr h] at h2
  simp [isSp] at h2

/-- A text with no leading and no trailing space is left as it is. -/
theorem Trim_of_no_space (t : String) (hh : t.data.head? ≠ some ' ')
    (hl : t.data.getLast? ≠ some ' ') : Trim t " " = t := by
  apply String.ext
  rw [Trim_space_data]
  have h1 : t.data.rdropWhile isSp = t.data := by
    rw [List.rdropWhile_eq_self_iff]
    intro hne hsp
    apply hl
    rw [List.getLast?_eq_getLast _ hne]
    simpa [isSp] using hsp
  rw [h1]
  cases hd : t.data with
  | nil => rfl
  | cons x r =>
    rw [hd] at hh
    have hx : ¬ isSp x = true := by
      intro hsp
      apply hh
      simpa [isSp] using hsp
    rw [List.dropWhile_cons_of_neg hx]

/-- A text made of spaces only trims to the empty text. -/
theorem Trim_all_spaces (a : String) (h : ∀ c ∈ a.data, c = ' ') : Trim a " " = "" := by
  apply String.ext
  rw [Trim_space_data]
  have h1 : a.data.rdropWhile isSp = [] := by
    rw [List.rdropWhile_eq_nil_iff]
    intro c hc
    simp [isSp, h c hc]
  rw [h1]
  rfl

/-- Padded lists trim to the same list. -/
theorem map_Trim_of_padded (L L' : List String) (h : List.Forall₂ Padded L L') :
    L'.map (fun a => Trim a " ") = L.map (fun a => Trim a " ") := by
  induction h with
  | nil => rfl
  | cons hab _ ih =>
    obtain ⟨n, m, rfl⟩ := hab
    simp only [List.map_cons, Trim_pad, ih]

end TrimLemmas

/-! ## Lemmas on the validation loop and the handler -/

section HandlerLemmas

variable {Addr Out : Type}

theorem accepts_eq_true_iff (d : Decls Addr) (a : String) :
    accepts d a = true ↔ ∃ addr, d.DecodeBase58Address a = Except.ok addr := by
  unfold accepts
  cases d.DecodeBase58Address a <;> simp

/-- The loop either accepts every address, calling the codec on each, or stops
at the first rejected one, having called the codec on it and its predecessors
only. -/
theorem validate_spec (d : Decls Addr) (l : List String) :
    ((∀ a ∈ l, accepts d a = true) ∧
        validate d l = (l.map Call.decodeBase58Address, none)) ∨
    (∃ pre b post, l = pre ++ b :: post ∧ (∀ a ∈ pre, accepts d a = true) ∧
        accepts d b = false ∧
        validate d l = ((pre ++ [b]).map Call.decodeBase58Address, some b)) := by
  induction l with
  | nil => exact Or.inl ⟨by simp, rfl⟩
  | cons x t ih =>
    cases hx : d.DecodeBase58Address x with
    | error e =>
      refine Or.inr ⟨[], x, t, rfl, by simp, by simp [accepts, hx], ?_⟩
      simp [validate, hx]
    | ok v =>
      have hax : accepts d x = true := by simp [accepts, hx]
      rcases ih with ⟨hall, hv⟩ | ⟨pre, b, post, hl, hpre, hb, hv⟩
      · refine Or.inl ⟨?_, ?_⟩
        · intro a ha
          rcases List.mem_cons.mp ha with rfl | ha
          · exact hax
          · exact hall a ha
        · simp [validate, hx, hv]
      · refine Or.inr ⟨x :: pre, b, post, by rw [hl]; rfl, ?_, hb, ?_⟩
        · intro a ha
          rcases List.mem_cons.mp ha with rfl | ha
          · exact hax
          · exact hpre a ha
        · simp [validate, hx, hv]

theorem validate_of_all (d : Decls Addr) (l : List String)
    (h : ∀ a ∈ l, accepts d a = true) :
    validate d l = (l.map Call.decodeBase58Address, none) := by
  rcases validate_spec d l with ⟨_, hv⟩ | ⟨pre, b, post, hl, _, hb, _⟩
  · exact hv
  · have := h b (by rw [hl]; simp)
    rw [hb] at this
    cases this

theorem validate_of_first (d : Decls Addr) (pre : List String) (b : String)
    (post : List String) (hpre : ∀ a ∈ pre, accepts d a = true)
    (hb : accepts d b = false) :
    validate d (pre ++ b :: post)
      = ((pre ++ [b]).map Call.decodeBase58Address, some b) := by
  induction pre with
  | nil =>
    have hx : ∃ e, d.DecodeBase58Address b = Except.error e := by
      unfold accepts at hb
      cases h : d.DecodeBase58Address b with
      | error e => exact ⟨e, rfl⟩
      | ok v => rw [h] at hb; cases hb
    obtain ⟨e, he⟩ := hx
    simp [validate, he]
  | cons x t ih =>
    obtain ⟨v, hv⟩ := (accepts_eq_true_iff d x).mp (hpre x (by simp))
    have := ih (fun a ha => hpre a (List.mem_cons_of_mem _ ha))
    simp [validate, hv, this]

/-- A list with a rejected element splits at its first rejected element. -/
theorem exists_first_rejected (q : String → Bool) (l : List String)
    (h : ∃ a ∈ l, q a = false) :
    ∃ pre b post, l = pre ++ b :: post ∧ (∀ a ∈ pre, q a = true) ∧ q b = false := by
  induction l with
  | nil => simp at h
  | cons x t ih =>
    by_cases hx : q x = true
    · obtain ⟨a, ha, hqa⟩ := h
      rcases List.mem_cons.mp ha with rfl | ha
      · rw [hx] at hqa; cases hqa
      · obtain ⟨pre, b, post, hl, hpre, hb⟩ := ih ⟨a, ha, hqa⟩
        refine ⟨x :: pre, b, post, by rw [hl]; rfl, ?_, hb⟩
        intro c hc
        rcases List.mem_cons.mp hc with rfl | hc
        · exact hx
        · exact hpre c hc
    · exact ⟨[], x, t, rfl, by simp, by simpa using hx⟩

theorem gatewayArgs_append (x y : List Call) :
    gatewayArgs (x ++ y) = gatewayArgs x ++ gatewayArgs y := by
  induction x with
  | nil => rfl
  | cons c t ih => cases c <;> simp [gatewayArgs, ih]

theorem gatewayArgs_map_decode (l : List String) :
    gatewayArgs (l.map Call.decodeBase58Address) = [] := by
  induction l with
  | nil => rfl
  | cons a t ih => simp [gatewayArgs, ih]

theorem codecArgs_append (x y : List Call) :
    codecArgs (x ++ y) = codecArgs x ++ codecArgs y := by
  induction x with
  | nil => rfl
  | cons c t ih => cases c <;> simp [codecArgs, ih]

theorem codecArgs_map_decode (l : List String) :
    codecArgs (l.map Call.decodeBase58Address) = l := by
  induction l with
  | nil => rfl
  | cons a t ih => simp [codecArgs, ih]

theorem mem_gatewayArgs (addrs : List String) (tr : List Call) :
    Call.getUnspentOutputs addrs ∈ tr ↔ addrs ∈ gatewayArgs tr := by
  induction tr with
  | nil => simp [gatewayArgs]
  | cons c t ih => cases c <;> simp [gatewayArgs, ih]

/-- The handler on a request that fails to decode. -/
theorem handler_of_decode_error (d : Decls Addr) (req : Request) (gateway : Gatewayer Out)
    (e : String) (hdec : req.DecodeParams = Except.error e) :
    getOutputsHandler d req gateway
      = ([], some (makeErrorResponse d.errCodeInvalidParams d.errMsgInvalidParams)) := by
  simp [getOutputsHandler, hdec]

/-- The handler on a request that decodes to the empty list. -/
theorem handler_of_empty (d : Decls Addr) (req : Request) (gateway : Gatewayer Out)
    (hdec : req.DecodeParams = Except.ok []) :
    getOutputsHandler d req gateway
      = ([], some (makeErrorResponse d.errCodeInvalidParams d.errMsgInvalidParams)) := by
  simp [getOutputsHandler, hdec]

/-- The handler on a non-empty list with a first rejected element. -/
theorem handler_of_first_rejected (d : Decls Addr) (req : Request) (gateway : Gatewayer Out)
    (pre : List String) (b : String) (post : List String)
    (hdec : req.DecodeParams = Except.ok (pre ++ b :: post))
    (hpre : ∀ a ∈ pre, accepts d (Trim a " ") = true)
    (hb : accepts d (Trim b " ") = false) :
    getOutputsHandler d req gateway
      = ((pre ++ [b]).map (fun a => Call.decodeBase58Address (Trim a " ")),
          some (makeErrorResponse d.errCodeInvalidParams ("invalid address: " ++ Trim b " "))) := by
  have hv := validate_of_first d (pre.map (fun a => Trim a " ")) (Trim b " ")
    (post.map (fun a => Trim a " "))
    (by
      intro a ha
      obtain ⟨a0, ha0, rfl⟩ := List.mem_map.mp ha
      exact hpre a0 ha0)
    hb
  simp only [getOutputsHandler, hdec]
  rw [if_neg (by simp)]
  simp only [List.map_append, List.map_cons, hv]
  simp

/-- The handler on a non-empty list of accepted addresses: one gateway call,
whose result decides the response. -/
theorem handler_of_all_accepted (d : Decls Addr) (req : Request) (gateway : Gatewayer Out)
    (L : List String) (hdec : req.DecodeParams = Except.ok L) (hne : L ≠ [])
    (hall : ∀ a ∈ L, accepts d (Trim a " ") = true) :
    getOutputsHandler d req gateway
      = match gateway.GetUnspentOutputs (L.map (fun a => Trim a " ")) with
        | (_, some err) =>
          (L.map (fun a => Call.decodeBase58Address (Trim a " ")) ++
              [Call.getUnspentOutputs (L.map (fun a => Trim a " ")),
               Call.logErrorf ("get unspent outputs failed: " ++ err)],
            some (makeErrorResponse d.errCodeInternalError
              ("gateway.GetUnspentOutputs failed: " ++ err)))
        | (some outs, none) =>
          (L.map (fun a => Call.decodeBase58Address (Trim a " ")) ++
              [Call.getUnspentOutputs (L.map (fun a => Trim a " "))],
            some (makeSuccessResponse req.ID { Outputs := outs }))
        | (none, none) =>
          (L.map (fun a => Call.decodeBase58Address (Trim a " ")) ++
              [Call.getUnspentOutputs (L.map (fun a => Trim a " "))], none) := by
  have hv := validate_of_all d (L.map (fun a => Trim a " "))
    (by
      intro a ha
      obtain ⟨a0, ha0, rfl⟩ := List.mem_map.mp ha
      exact hall a0 ha0)
  have hlen : ¬ L.length = 0 := by
    intro h
    exact hne (List.length_eq_zero.mp h)
  simp only [getOutputsHandler, hdec]
  rw [if_neg hlen]
  simp only [hv, List.map_map]
  rfl

theorem gatewayArgs_map_decode_comp (f : String → String) (l : List String) :
    gatewayArgs (l.map (fun a => Call.decodeBase58Address (f a))) = [] := by
  induction l with
  | nil => rfl
  | cons a t ih => simp [gatewayArgs, ih]

theorem codecArgs_map_decode_comp (f : String → String) (l : List String) :
    codecArgs (l.map (fun a => Call.decodeBase58Address (f a))) = l.map f := by
  induction l with
  | nil => rfl
  | cons a t ih => simp [codecArgs, ih]

/-- On a non-empty list of accepted addresses the trace has one gateway call,
on the trimmed list, whatever the gateway returns. -/
theorem gatewayArgs_of_all_accepted (d : Decls Addr) (req : Request)
    (gateway : Gatewayer Out) (L : List String)
    (hdec : req.DecodeParams = Except.ok L) (hne : L ≠ [])
    (hall : ∀ a ∈ L, accepts d (Trim a " ") = true) :
    gatewayArgs (getOutputsHandler d req gateway).1 = [L.map (fun a => Trim a " ")] := by
  rw [handler_of_all_accepted d req gateway L hdec hne hall]
  rcases gateway.GetUnspentOutputs (L.map (fun a => Trim a " ")) with ⟨outs, err⟩
  cases outs <;> cases err <;>
    (show gatewayArgs (L.map (fun a => Call.decodeBase58Address (Trim a " ")) ++ _) = _
     rw [gatewayArgs_append, gatewayArgs_map_decode_comp]
     rfl)

/-- When some trimmed element is rejected the trace has no gateway call. -/
theorem gatewayArgs_of_rejected (d : Decls Addr) (req : Request)
    (gateway : Gatewayer Out) (L : List String)
    (hdec : req.DecodeParams = Except.ok L)
    (hbad : ∃ a ∈ L, accepts d (Trim a " ") = false) :
    gatewayArgs (getOutputsHandler d req gateway).1 = [] := by
  obtain ⟨pre, b, post, hl, hpre, hb⟩ :=
    exists_first_rejected (fun a => accepts d (Trim a " ")) L hbad
  rw [handler_of_first_rejected d req gateway pre b post (hl ▸ hdec) hpre hb]
  exact gatewayArgs_map_decode_comp _ _

/-- The codec calls of the handler are made on a prefix of the trimmed list. -/
theorem codecArgs_initial_segment (d : Decls Addr) (req : Request) (gateway : Gatewayer Out)
    (L : List String) (hdec : req.DecodeParams = Except.ok L) :
    codecArgs (getOutputsHandler d req gateway).1 <+: L.map (fun a => Trim a " ") := by
  by_cases hne : L = []
  · subst hne
    rw [handler_of_empty d req gateway hdec]
    exact ⟨_, List.nil_append _⟩
  · by_cases hbad : ∃ a ∈ L, accepts d (Trim a " ") = false
    · obtain ⟨pre, b, post, hl, hpre, hb⟩ :=
        exists_first_rejected (fun a => accepts d (Trim a " ")) L hbad
      rw [handler_of_first_rejected d req gateway pre b post (hl ▸ hdec) hpre hb]
      show codecArgs ((pre ++ [b]).map (fun a => Call.decodeBase58Address (Trim a " "))) <+: _
      rw [codecArgs_map_decode_comp, hl]
      refine ⟨post.map (fun a => Trim a " "), ?_⟩
      simp
    · have hall : ∀ a ∈ L, accepts d (Trim a " ") = true := by
        intro a ha
        by_contra hna
        exact hbad ⟨a, ha, by simpa using hna⟩
      rw [handler_of_all_accepted d req gateway L hdec hne hall]
      rcases gateway.GetUnspentOutputs (L.map (fun a => Trim a " ")) with ⟨outs, err⟩
      cases outs <;> cases err <;>
        (show codecArgs (L.map (fun a => Call.decodeBase58Address (Trim a " ")) ++ _) <+: _
         rw [codecArgs_append, codecArgs_map_decode_comp]
         simp [codecArgs])

/-- Every response of the handler is an error response that does not depend on
the request's ID, or the success response built from the request's ID. -/
theorem handler_response_cases (d : Decls Addr) (req : Request) (gateway : Gatewayer Out) :
    (∃ c m, ∀ id, (getOutputsHandler d { req with ID := id } gateway).2
        = some (makeErrorResponse c m)) ∨
    (∃ S, ∀ id, (getOutputsHandler d { req with ID := id } gateway).2
        = some (makeSuccessResponse id { Outputs := S })) ∨
    (∀ id, (getOutputsHandler d { req with ID := id } gateway).2 = none) := by
  cases hdec : req.DecodeParams with
  | error e =>
    exact Or.inl ⟨d.errCodeInvalidParams, d.errMsgInvalidParams, fun id => by
      rw [handler_of_decode_error d _ gateway e rfl]⟩
  | ok L =>
    by_cases hne : L = []
    · subst hne
      exact Or.inl ⟨d.errCodeInvalidParams, d.errMsgInvalidParams, fun id => by
        rw [handler_of_empty d _ gateway rfl]⟩
    · by_cases hbad : ∃ a ∈ L, accepts d (Trim a " ") = false
      · obtain ⟨pre, b, post, hl, hpre, hb⟩ :=
          exists_first_rejected (fun a => accepts d (Trim a " ")) L hbad
        subst hl
        exact Or.inl ⟨d.errCodeInvalidParams, "invalid address: " ++ Trim b " ", fun id => by
          rw [handler_of_first_rejected d _ gateway pre b post rfl hpre hb]⟩
      · have hall : ∀ a ∈ L, accepts d (Trim a " ") = true := by
          intro a ha
          by_contra hna
          exact hbad ⟨a, ha, by simpa using hna⟩
        rcases hg : gateway.GetUnspentOutputs (L.map (fun a => Trim a " ")) with ⟨outs, err⟩
        cases err with
        | some e =>
          refine Or.inl ⟨d.errCodeInternalError, "gateway.GetUnspentOutputs failed: " ++ e,
            fun id => ?_⟩
          rw [handler_of_all_accepted d _ gateway L rfl hne hall, hg]
          cases outs <;> rfl
        | none =>
          cases outs with
          | some S =>
            refine Or.inr (Or.inl ⟨S, fun id => ?_⟩)
            rw [handler_of_all_accepted d _ gateway L rfl hne hall, hg]
          | none =>
            refine Or.inr (Or.inr fun id => ?_)
            rw [handler_of_all_accepted d _ gateway L rfl hne hall, hg]

end HandlerLemmas

/-! ## The handler's contract -/

section Contract

variable {Addr Out : Type}

/-- C1: when the parameters decode to a list in which some element, once
space-trimmed, is rejected by the codec, the list splits at its first such
element `b` (everything before it is accepted), the handler calls the codec on
the trimmed elements up to and including `b` and on nothing else, and it returns
the error response with the invalid-params code and the message
`invalid address: ` followed by the trimmed text of `b`. -/
theorem getOutputsHandler_reports_first_invalid (d : Decls Addr) (req : Request)
    (gateway : Gatewayer Out) (L : List String)
    (hdec : req.DecodeParams = Except.ok L)
    (hbad : ∃ a ∈ L, accepts d (Trim a " ") = false) :
    ∃ pre b post, L = pre ++ b :: post ∧
      (∀ a ∈ pre, accepts d (Trim a " ") = true) ∧
      accepts d (Trim b " ") = false ∧
      getOutputsHandler d req gateway
        = ((pre ++ [b]).map (fun a => Call.decodeBase58Address (Trim a " ")),
            some (makeErrorResponse d.errCodeInvalidParams
              ("invalid address: " ++ Trim b " "))) := by
  obtain ⟨pre, b, post, hl, hpre, hb⟩ :=
    exists_first_rejected (fun a => accepts d (Trim a " ")) L hbad
  exact ⟨pre, b, post, hl, hpre, hb,
    handler_of_first_rejected d req gateway pre b post (hl ▸ hdec) hpre hb⟩


/-- The first rejected element of `mixedList` is reported, not the later one. -/
theorem getOutputsHandler_reports_first_invalid_witness :
    (∃ a ∈ mixedList, accepts sampleDecls (Trim a " ") = false) ∧
      ∃ pre b post, mixedList = pre ++ b :: post ∧
        (∀ a ∈ pre, accepts sampleDecls (Trim a " ") = true) ∧
        accepts sampleDecls (Trim b " ") = false ∧
        getOutputsHandler sampleDecls (requestOf "7" mixedList) sampleGateway
          = ((pre ++ [b]).map (fun a => Call.decodeBase58Address (Trim a " ")),
              some (makeErrorResponse sampleDecls.errCodeInvalidParams
                ("invalid address: " ++ Trim b " "))) :=
  ⟨⟨" not-an-address ", by decide, by decide⟩,
    getOutputsHandler_reports_first_invalid sampleDecls (requestOf "7" mixedList)
      sampleGateway mixedList rfl ⟨" not-an-address ", by decide, by decide⟩⟩

/-- C2: the gateway is invoked only when the parameters decoded to a non-empty
list all of whose trimmed elements the codec accepted, and then on exactly that
trimmed list, every element of which the codec decodes successfully; and when
the decoded list contains an element whose trimmed text the codec rejects, the
trace contains no gateway call. -/
theorem getOutputsHandler_gateway_only_after_validation (d : Decls Addr) (req : Request)
    (gateway : Gatewayer Out) :
    (∀ addrs, Call.getUnspentOutputs addrs ∈ (getOutputsHandler d req gateway).1 →
      ∃ L, req.DecodeParams = Except.ok L ∧ L ≠ [] ∧
        addrs = L.map (fun a => Trim a " ") ∧
        (∀ a ∈ L, accepts d (Trim a " ") = true) ∧
        (∀ a ∈ addrs, ∃ addr, d.DecodeBase58Address a = Except.ok addr)) ∧
    (∀ L, req.DecodeParams = Except.ok L →
      (∃ a ∈ L, accepts d (Trim a " ") = false) →
      gatewayArgs (getOutputsHandler d req gateway).1 = []) := by
  refine ⟨?_, fun L hdec hbad => gatewayArgs_of_rejected d req gateway L hdec hbad⟩
  intro addrs hmem
  rw [mem_gatewayArgs] at hmem
  cases hdec : req.DecodeParams with
  | error e =>
    rw [handler_of_decode_error d req gateway e hdec] at hmem
    simp [gatewayArgs] at hmem
  | ok L =>
    by_cases hne : L = []
    · subst hne
      rw [handler_of_empty d req gateway hdec] at hmem
      simp [gatewayArgs] at hmem
    · by_cases hbad : ∃ a ∈ L, accepts d (Trim a " ") = false
      · rw [gatewayArgs_of_rejected d req gateway L hdec hbad] at hmem
        simp at hmem
      · have hall : ∀ a ∈ L, accepts d (Trim a " ") = true := by
          intro a ha
          by_contra hna
          exact hbad ⟨a, ha, by simpa using hna⟩
        rw [gatewayArgs_of_all_accepted d req gateway L hdec hne hall] at hmem
        have haddrs : addrs = L.map (fun a => Trim a " ") := by simpa using hmem
        refine ⟨L, rfl, hne, haddrs, hall, ?_⟩
        intro a ha
        rw [haddrs] at ha
        obtain ⟨a0, ha0, rfl⟩ := List.mem_map.mp ha
        exact (accepts_eq_true_iff d _).mp (hall a0 ha0)


/-- The list of the specification's example never reaches the gateway. -/
theorem getOutputsHandler_gateway_only_after_validation_witness :
    gatewayArgs (getOutputsHandler sampleDecls
      (requestOf "7" ["validAddr1", "not-an-address", "validAddr2"]) sampleGateway).1 = [] :=
  (getOutputsHandler_gateway_only_after_validation sampleDecls
    (requestOf "7" ["validAddr1", "not-an-address", "validAddr2"]) sampleGateway).2
    ["validAddr1", "not-an-address", "validAddr2"] rfl
    ⟨"not-an-address", by decide, by decide⟩

/-- C3: when the parameters decode to a non-empty list whose trimmed elements
are all accepted and the gateway returns the output set `S` without error, the
handler returns the success response built from the request's ID and
`OutputsResult{Outputs: S}`; the output set it carries is exactly `S`. -/
theorem getOutputsHandler_success (d : Decls Addr) (req : Request)
    (gateway : Gatewayer Out) (L : List String) (S : Out)
    (hdec : req.DecodeParams = Except.ok L) (hne : L ≠ [])
    (hall : ∀ a ∈ L, accepts d (Trim a " ") = true)
    (hgw : gateway.GetUnspentOutputs (L.map (fun a => Trim a " ")) = (some S, none)) :
    (getOutputsHandler d req gateway).2
        = some (makeSuccessResponse req.ID { Outputs := S }) ∧
      (getOutputsHandler d req gateway).2.bind Response.outputs = some S ∧
      (getOutputsHandler d req gateway).2.bind Response.error = none := by
  rw [handler_of_all_accepted d req gateway L hdec hne hall, hgw]
  exact ⟨rfl, rfl, rfl⟩


/-- The outputs of the sample gateway come back unchanged under the request's ID. -/
theorem getOutputsHandler_success_witness :
    (getOutputsHandler sampleDecls (requestOf "7" validList) sampleGateway).2
        = some (makeSuccessResponse (requestOf "7" validList).ID
            { Outputs := ["out-of-addrA", "out-of-addrB"] }) ∧
      (getOutputsHandler sampleDecls (requestOf "7" validList) sampleGateway).2.bind
        Response.outputs = some ["out-of-addrA", "out-of-addrB"] ∧
      (getOutputsHandler sampleDecls (requestOf "7" validList) sampleGateway).2.bind
        Response.error = none :=
  getOutputsHandler_success sampleDecls (requestOf "7" validList) sampleGateway validList
    ["out-of-addrA", "out-of-addrB"] rfl (by decide) (by decide) (by decide)

/-- C4: when the parameters decode to a non-empty list whose trimmed elements
are all accepted and the gateway returns the error `e` (with or without an
output set beside it), the handler returns the error response with the
internal-error code and the message `gateway.GetUnspentOutputs failed: `
followed by the text of `e`; that response carries no output set. -/
theorem getOutputsHandler_gateway_failure (d : Decls Addr) (req : Request)
    (gateway : Gatewayer Out) (L : List String) (outs : Option Out) (e : String)
    (hdec : req.DecodeParams = Except.ok L) (hne : L ≠ [])
    (hall : ∀ a ∈ L, accepts d (Trim a " ") = true)
    (hgw : gateway.GetUnspentOutputs (L.map (fun a => Trim a " ")) = (outs, some e)) :
    (getOutputsHandler d req gateway).2
        = some (makeErrorResponse d.errCodeInternalError
            ("gateway.GetUnspentOutputs failed: " ++ e)) ∧
      (getOutputsHandler d req gateway).2.bind Response.outputs = none := by
  rw [handler_of_all_accepted d req gateway L hdec hne hall, hgw]
  cases outs <;> exact ⟨rfl, rfl⟩


/-- The failing gateway's error is reported and its output set is dropped. -/
theorem getOutputsHandler_gateway_failure_witness :
    (getOutputsHandler sampleDecls (requestOf "7" validList) failingGateway).2
        = some (makeErrorResponse sampleDecls.errCodeInternalError
            ("gateway.GetUnspentOutputs failed: " ++ "storage unavailable")) ∧
      (getOutputsHandler sampleDecls (requestOf "7" validList) failingGateway).2.bind
        Response.outputs = none :=
  getOutputsHandler_gateway_failure sampleDecls (requestOf "7" validList) failingGateway
    validList (some ["addrA"]) "storage unavailable" rfl (by decide) (by decide) (by decide)

/-- C5: on a request whose parameters fail to decode, and on a request whose
parameters decode to the empty list, the handler makes no external call (no
codec call, no gateway call) and returns the error response built from the
invalid-params code and the fixed invalid-params message, the same in both
cases, for every codec and every gateway. -/
theorem getOutputsHandler_invalid_params (d : Decls Addr) (gateway : Gatewayer Out)
    (id : String) (e : String) :
    getOutputsHandler d { ID := id, DecodeParams := Except.error e } gateway
        = ([], some (makeErrorResponse d.errCodeInvalidParams d.errMsgInvalidParams)) ∧
      getOutputsHandler d { ID := id, DecodeParams := Except.ok [] } gateway
        = ([], some (makeErrorResponse d.errCodeInvalidParams d.errMsgInvalidParams)) :=
  ⟨handler_of_decode_error d _ gateway e rfl, handler_of_empty d _ gateway rfl⟩

/-- C6: the codec is called on the space-trimmed elements of the decoded list,
in list order (its arguments are a prefix of the trimmed list).  The trimmed
text of `a` is `a` without a run of leading and a run of trailing spaces, it
neither starts nor ends with a space, and any text with no leading and no
trailing space (whatever else it contains: interior spaces, tabs, newlines) is
recovered unchanged from each of its space paddings. -/
theorem getOutputsHandler_codec_sees_trimmed (d : Decls Addr) (req : Request)
    (gateway : Gatewayer Out) (L : List String)
    (hdec : req.DecodeParams = Except.ok L) :
    codecArgs (getOutputsHandler d req gateway).1 <+: L.map (fun a => Trim a " ") ∧
      (∀ a : String, (∃ n m, a = pad n (Trim a " ") m) ∧
        (Trim a " ").data.head? ≠ some ' ' ∧ (Trim a " ").data.getLast? ≠ some ' ') ∧
      (∀ (t : String) (n m : Nat), t.data.head? ≠ some ' ' → t.data.getLast? ≠ some ' ' →
        Trim (pad n t m) " " = t) ∧
      Trim " Abc123 " " " = "Abc123" := by
  refine ⟨codecArgs_initial_segment d req gateway L hdec,
    fun a => ⟨Trim_decomp a, Trim_head a, Trim_last a⟩, ?_, by decide⟩
  intro t n m hh hl
  rw [Trim_pad, Trim_of_no_space t hh hl]


/-- The codec is called on `Abc123`, which the sample codec rejects, and on
nothing else. -/
theorem getOutputsHandler_codec_sees_trimmed_witness :
    (codecArgs (getOutputsHandler sampleDecls (requestOf "7" [" Abc123 ", "addrB"])
          sampleGateway).1 <+: [" Abc123 ", "addrB"].map (fun a => Trim a " ") ∧
        (∀ a : String, (∃ n m, a = pad n (Trim a " ") m) ∧
          (Trim a " ").data.head? ≠ some ' ' ∧ (Trim a " ").data.getLast? ≠ some ' ') ∧
        (∀ (t : String) (n m : Nat), t.data.head? ≠ some ' ' →
          t.data.getLast? ≠ some ' ' → Trim (pad n t m) " " = t) ∧
        Trim " Abc123 " " " = "Abc123") ∧
      codecArgs (getOutputsHandler sampleDecls (requestOf "7" [" Abc123 ", "addrB"])
        sampleGateway).1 = ["Abc123"] :=
  ⟨getOutputsHandler_codec_sees_trimmed sampleDecls (requestOf "7" [" Abc123 ", "addrB"])
    sampleGateway [" Abc123 ", "addrB"] rfl, by decide⟩

/-- C7 as stated fails: on a request with ID `1` whose parameters decode to the
empty list the response carries no correlation identifier; and since the
handler returns one and the same response for that request and for the one with
ID `2`, no way of reading an identifier off a response gives back both IDs. -/
theorem getOutputsHandler_error_response_without_id :
    (getOutputsHandler sampleDecls (requestOf "1" []) sampleGateway).2.bind Response.ID
        ≠ some "1" ∧
      ¬ ∃ idOf : Option (Response (List String)) → Option String,
        idOf (getOutputsHandler sampleDecls (requestOf "1" []) sampleGateway).2 = some "1" ∧
        idOf (getOutputsHandler sampleDecls (requestOf "2" []) sampleGateway).2 = some "2" := by
  refine ⟨by decide, ?_⟩
  rintro ⟨idOf, h1, h2⟩
  rw [handler_of_empty sampleDecls _ sampleGateway rfl] at h1 h2
  rw [h1] at h2
  exact absurd h2 (by decide)

/-- C7, amended: a success response of the handler carries a correlation
identifier equal to the request's ID; an error response of the handler carries
no correlation identifier and is the same for every request ID. -/
theorem getOutputsHandler_id_on_success (d : Decls Addr) (req : Request)
    (gateway : Gatewayer Out) (resp : Response Out)
    (h : (getOutputsHandler d req gateway).2 = some resp) :
    (resp.error = none → resp.ID = some req.ID) ∧
      (resp.error ≠ none → resp.ID = none ∧
        ∀ id, (getOutputsHandler d { req with ID := id } gateway).2 = some resp) := by
  have hreq : ({ req with ID := req.ID } : Request) = req := by cases req; rfl
  rcases handler_response_cases d req gateway with ⟨c, m, hc⟩ | ⟨S, hc⟩ | hc
  · have h0 := hc req.ID
    rw [hreq, h] at h0
    cases h0
    exact ⟨fun he => (by cases he), fun _ => ⟨rfl, hc⟩⟩
  · have h0 := hc req.ID
    rw [hreq, h] at h0
    cases h0
    exact ⟨fun _ => rfl, fun he => absurd rfl he⟩
  · have h0 := hc req.ID
    rw [hreq, h] at h0
    cases h0


/-- The success response to the request with ID `7` carries the identifier `7`. -/
theorem getOutputsHandler_id_on_success_witness :
    (getOutputsHandler sampleDecls (requestOf "7" validList) sampleGateway).2
        = some (makeSuccessResponse "7" { Outputs := ["out-of-addrA", "out-of-addrB"] }) ∧
      (makeSuccessResponse "7"
          ({ Outputs := ["out-of-addrA", "out-of-addrB"] } : OutputsResult (List String))).ID
        = some (requestOf "7" validList).ID :=
  ⟨by decide,
    (getOutputsHandler_id_on_success sampleDecls (requestOf "7" validList) sampleGateway
      (makeSuccessResponse "7" { Outputs := ["out-of-addrA", "out-of-addrB"] })
      (by decide)).1 rfl⟩

/-- C8: when the parameters decode to a non-empty list whose trimmed elements
are all accepted, the trace contains exactly one gateway call, on the list of
the trimmed elements: as long as the decoded list, with the trimmed `i`-th
element at position `i` (nothing dropped, merged or reordered). -/
theorem getOutputsHandler_single_gateway_call (d : Decls Addr) (req : Request)
    (gateway : Gatewayer Out) (L : List String)
    (hdec : req.DecodeParams = Except.ok L) (hne : L ≠ [])
    (hall : ∀ a ∈ L, accepts d (Trim a " ") = true) :
    gatewayArgs (getOutputsHandler d req gateway).1 = [L.map (fun a => Trim a " ")] ∧
      (L.map (fun a => Trim a " ")).length = L.length ∧
      ∀ i : Nat, (L.map (fun a => Trim a " "))[i]? = (L[i]?).map (fun a => Trim a " ") :=
  ⟨gatewayArgs_of_all_accepted d req gateway L hdec hne hall, List.length_map _ _,
    fun _ => List.getElem?_map _ _ _⟩


/-- The duplicated address reaches the gateway as two entries, in one call. -/
theorem getOutputsHandler_single_gateway_call_witness :
    (gatewayArgs (getOutputsHandler sampleDecls (requestOf "7" dupList) sampleGateway).1
          = [dupList.map (fun a => Trim a " ")] ∧
        (dupList.map (fun a => Trim a " ")).length = dupList.length ∧
        ∀ i : Nat, (dupList.map (fun a => Trim a " "))[i]?
          = (dupList[i]?).map (fun a => Trim a " ")) ∧
      dupList.map (fun a => Trim a " ") = ["addrA", "addrA"] :=
  ⟨getOutputsHandler_single_gateway_call sampleDecls (requestOf "7" dupList) sampleGateway
    dupList rfl (by decide) (by decide), by decide⟩

/-- C9: when the parameters decode to a non-empty list whose elements consist
of space characters only and the codec rejects the empty text, the handler
calls the codec once, on the empty text, makes no gateway call, and returns the
error response with the invalid-params code and the message `invalid address: `
(nothing after it); that response differs from the fixed invalid-params
response unless the fixed message is that very text. -/
theorem getOutputsHandler_blank_addresses (d : Decls Addr) (req : Request)
    (gateway : Gatewayer Out) (L : List String)
    (hdec : req.DecodeParams = Except.ok L) (hne : L ≠ [])
    (hsp : ∀ a ∈ L, ∀ c ∈ a.data, c = ' ')
    (hrej : accepts d "" = false) :
    getOutputsHandler d req gateway
        = ([Call.decodeBase58Address ""],
            some (makeErrorResponse d.errCodeInvalidParams "invalid address: ")) ∧
      gatewayArgs (getOutputsHandler d req gateway).1 = [] ∧
      (d.errMsgInvalidParams ≠ "invalid address: " →
        (getOutputsHandler d req gateway).2
          ≠ some (makeErrorResponse d.errCodeInvalidParams d.errMsgInvalidParams)) := by
  cases L with
  | nil => exact absurd rfl hne
  | cons a rest =>
    have ha : Trim a " " = "" := Trim_all_spaces a (hsp a (by simp))
    have hb : accepts d (Trim a " ") = false := by rw [ha]; exact hrej
    have hh := handler_of_first_rejected d req gateway [] a rest hdec (by simp) hb
    rw [ha] at hh
    have hh2 : getOutputsHandler d req gateway
        = ([Call.decodeBase58Address ""],
            some (makeErrorResponse d.errCodeInvalidParams "invalid address: ")) := by
      rw [hh]; simp [ha]
    refine ⟨hh2, by rw [hh2]; rfl, ?_⟩
    intro hmsg heq
    rw [hh2] at heq
    simp only [makeErrorResponse, Option.some.injEq, Response.failure.injEq, true_and] at heq
    exact hmsg heq.symm


/-- A list of blank texts is answered with the invalid-address error. -/
theorem getOutputsHandler_blank_addresses_witness :
    getOutputsHandler sampleDecls (requestOf "7" blankList) sampleGateway
        = ([Call.decodeBase58Address ""],
            some (makeErrorResponse sampleDecls.errCodeInvalidParams "invalid address: ")) ∧
      gatewayArgs (getOutputsHandler sampleDecls (requestOf "7" blankList) sampleGateway).1
        = [] ∧
      (sampleDecls.errMsgInvalidParams ≠ "invalid address: " →
        (getOutputsHandler sampleDecls (requestOf "7" blankList) sampleGateway).2
          ≠ some (makeErrorResponse sampleDecls.errCodeInvalidParams
              sampleDecls.errMsgInvalidParams)) :=
  getOutputsHandler_blank_addresses sampleDecls (requestOf "7" blankList) sampleGateway
    blankList rfl (by decide) (by decide) (by decide)

/-- C10: two requests with the same ID whose parameters decode to lists that
differ only by leading and trailing spaces added to elements get the same
external calls and the same response from the handler. -/
theorem getOutputsHandler_padding_invariant (d : Decls Addr) (req req' : Request)
    (gateway : Gatewayer Out) (L L' : List String)
    (hid : req'.ID = req.ID)
    (hdec : req.DecodeParams = Except.ok L) (hdec' : req'.DecodeParams = Except.ok L')
    (hpad : List.Forall₂ Padded L L') :
    getOutputsHandler d req' gateway = getOutputsHandler d req gateway := by
  have hmap := map_Trim_of_padded L L' hpad
  have hlen : L'.length = L.length := hpad.length_eq.symm
  simp only [getOutputsHandler, hdec, hdec', hlen, hmap, hid]


/-- The padded `validList` is handled as the unpadded list is. -/
theorem getOutputsHandler_padding_invariant_witness :
    getOutputsHandler sampleDecls (requestOf "7" validList) sampleGateway
      = getOutputsHandler sampleDecls (requestOf "7" ["addrA", "addrB"]) sampleGateway :=
  getOutputsHandler_padding_invariant sampleDecls (requestOf "7" ["addrA", "addrB"])
    (requestOf "7" validList) sampleGateway ["addrA", "addrB"] validList rfl rfl rfl
    (List.Forall₂.cons ⟨1, 1, by decide⟩ (List.Forall₂.cons ⟨0, 0, by decide⟩ List.Forall₂.nil))

end Contract

end webrpc
